import Mathlib

/-!
Verification of the Api-Market refresh pipeline (Go sources `main.go` and the
background-refresh variant) against its natural-language specification.

The embedding translates the Go functions into executable Lean definitions:
  * `CryptoInfo` mirrors the JSON-serialised struct.
  * `categorizeResults` mirrors the chunk-by-10 loop.
  * `buildCategorizedMap` mirrors the four unguarded bucket index accesses
    `groupedResults[0] .. groupedResults[3]`; an out-of-range access (a Go
    panic) is modelled by `none`.
  * `formatChange`, `getPricesAndChanges`, the entry join, the image cache and
    the refresh-cycle event trace follow in later sections.
-/

/-- The serialised entry struct `CryptoInfo` from `main.go`
(fields `index`, `image`, `name`, `price`, `change_24h`). -/
structure CryptoInfo where
  Index : String
  Image : String
  Name : String
  Price : String
  Change24h : String
deriving DecidableEq, Inhabited

/-- Loop body of `categorizeResults`: the Go loop advances `i` by 10 while
`i < len(allResults)` and appends the slice `allResults[i:min(i+10,len)]`.
The first argument bounds the number of remaining iterations (the loop runs
at most `len(allResults)` times), making the recursion structural. -/
def categorizeResultsGo : Nat → List CryptoInfo → List (List CryptoInfo)
  | 0, _ => []
  | _, [] => []
  | fuel + 1, a :: rest =>
      (a :: rest).take 10 :: categorizeResultsGo fuel ((a :: rest).drop 10)

/-- `categorizeResults` from `main.go` lines 143–153 (identical in the
background variant): split the result slice into consecutive groups of 10,
the last group possibly shorter. -/
def categorizeResults (allResults : List CryptoInfo) : List (List CryptoInfo) :=
  categorizeResultsGo allResults.length allResults

/-- The categorized result map from `main.go` lines 131–136 (and the
background variant lines 137–142): a Go map with the four fixed keys
"Populares", "Ganadores", "Perdedores", "MayorVolumen", modelled as a
structure with one field per key. -/
structure Snapshot where
  populares : List CryptoInfo
  ganadores : List CryptoInfo
  perdedores : List CryptoInfo
  mayorVolumen : List CryptoInfo
deriving DecidableEq

/-- Building the categorized map: the four unguarded index accesses
`groupedResults[0] .. groupedResults[3]`.  A missing bucket is an
index-out-of-range panic in Go, modelled here by `none` (the refresh cycle
aborts and no map is produced). -/
def buildCategorizedMap (allResults : List CryptoInfo) : Option Snapshot :=
  match (categorizeResults allResults).get? 0, (categorizeResults allResults).get? 1,
      (categorizeResults allResults).get? 2, (categorizeResults allResults).get? 3 with
  | some p, some ga, some pe, some mv => some ⟨p, ga, pe, mv⟩
  | _, _, _, _ => none

/-- Concatenation of the four buckets of a built snapshot, in label order. -/
def bucketsJoin (s : Snapshot) : List CryptoInfo :=
  s.populares ++ s.ganadores ++ s.perdedores ++ s.mayorVolumen

/-- A concrete 12-entry input used to witness C1. -/
def sample12 : List CryptoInfo :=
  (List.range 12).map fun i =>
    { Index := toString i, Image := "", Name := toString i,
      Price := "", Change24h := "" }

/-- Decimal rendering of a natural number (most significant digit first),
modelling the integer-part digits that `fmt.Sprintf("%.2f", _)` emits.  The
first argument is recursion fuel (`n + 1` always suffices). -/
def natStrAux : Nat → Nat → List Char → List Char
  | 0, _, acc => acc
  | fuel + 1, n, acc =>
      if n < 10 then Char.ofNat (48 + n) :: acc
      else natStrAux fuel (n / 10) (Char.ofNat (48 + n % 10) :: acc)

/-- Decimal string of a natural number. -/
def natStr (n : Nat) : String := String.mk (natStrAux (n + 1) n [])

/-- Numeric value of a digit run (most significant digit first). -/
def digitsVal (cs : List Char) : Nat :=
  cs.foldl (fun n c => 10 * n + (c.toNat - 48)) 0

/-- An exactly-parsed decimal number: the value `num / 10 ^ exp`.  Keeping the
significand and fractional digit count as integers makes every step of the
`formatChange` pipeline kernel-computable. -/
structure DecValue where
  num : Int
  exp : Nat
deriving DecidableEq

/-- The real value a `DecValue` denotes. -/
def DecValue.toRat (v : DecValue) : ℚ := (v.num : ℚ) / 10 ^ v.exp

/-- Modelled library call: `strconv.ParseFloat(change, 64)` from `main.go`
line 249, restricted to the plain decimal grammar
`[+|-] digits [ . digits ]` with at least one digit (the only shapes the 24h
percent-change feed and the spec's examples use).  Exponents, hex floats,
"Inf"/"NaN", digit underscores and out-of-range handling are omitted, and the
parsed value is kept exact; binary float64 rounding is not modelled. -/
def parseFloatDec (change : String) : Option DecValue :=
  let cs := change.toList
  let signSplit : Int × List Char :=
    match cs with
    | '+' :: r => (1, r)
    | '-' :: r => (-1, r)
    | r => (1, r)
  let intPart := signSplit.2.takeWhile Char.isDigit
  let rest2 := signSplit.2.dropWhile Char.isDigit
  match rest2 with
  | [] =>
      if intPart = [] then none
      else some ⟨signSplit.1 * digitsVal intPart, 0⟩
  | '.' :: fr =>
      let fracPart := fr.takeWhile Char.isDigit
      let rest3 := fr.dropWhile Char.isDigit
      if rest3 = [] ∧ ¬(intPart = [] ∧ fracPart = []) then
        some ⟨signSplit.1 * (digitsVal intPart * 10 ^ fracPart.length + digitsVal fracPart),
          fracPart.length⟩
      else none
  | _ => none

/-- The two digits after the decimal point of a `%.2f` rendering. -/
def twoDigits (b : Nat) : String :=
  String.mk [Char.ofNat (48 + b / 10 % 10), Char.ofNat (48 + b % 10)]

/-- The magnitude of `v`, scaled by 100 and rounded to the nearest integer
(halves away from zero): the hundredths count that `%.2f` prints. -/
def DecValue.scaled2 (v : DecValue) : Nat :=
  (2 * (v.num.natAbs * 100) + 10 ^ v.exp) / (2 * 10 ^ v.exp)

/-- Modelled library call: `fmt.Sprintf("%.2f", v)` as used in `main.go`
lines 255 and 257 — the sign of the value, then the magnitude rounded to two
decimal places.  Rounding is round-half-away-from-zero on the exact decimal
value; Go rounds the binary float64 value, which agrees except within one ulp
of a decimal tie (irrelevant to the sign/shape properties and the spec's
examples, which are exact). -/
def formatF2 (v : DecValue) : String :=
  (if v.num < 0 then "-" else "")
    ++ natStr (v.scaled2 / 100) ++ "." ++ twoDigits (v.scaled2 % 100)

/-- `formatChange` from `main.go` lines 248–258: parse the change string; on
parse error log and return the input unchanged; positive values get a leading
"+"; either way render with two decimals and a trailing "%".  (`0 < v.num`
is the Go test `changeValue > 0` on the parsed value; see
`DecValue.toRat_pos`.) -/
def formatChange (change : String) : String :=
  match parseFloatDec change with
  | none => change
  | some changeValue =>
      if 0 < changeValue.num then "+" ++ formatF2 changeValue ++ "%"
      else formatF2 changeValue ++ "%"

/-- Raw fields extracted per DOM block by `handleRequest` in `main.go`
(index label, image src attribute, display name). -/
structure ScrapedEntry where
  index : String
  image : String
  name : String
deriving DecidableEq

/-- Go map indexing `m[k]` on a `map[string]string`: a missing key yields the
zero value `""`. -/
def mapGet (m : List (String × String)) (k : String) : String :=
  (m.lookup k).getD ""

/-- Modelled library call: Go `strings.ToUpper` — uppercase every character.
(Go is Unicode-aware; `Char.toUpper` is ASCII-only, which agrees on the ASCII
display names in play.) -/
def toUpperStr (s : String) : String := String.mk (s.data.map Char.toUpper)

/-- Image filename derivation from `main.go` line 96:
`strings.ReplaceAll(info.Name, " ", "_") + ".jpg"`.  The pattern is a single
character, so ReplaceAll is the per-character substitution of spaces by
underscores. -/
def imageFilename (displayName : String) : String :=
  String.mk (displayName.data.map fun c => if c = ' ' then '_' else c) ++ ".jpg"

/-- The per-entry join of `handleRequest` (`main.go` lines 89–107): derive the
symbol `strings.ToUpper(info.Name) + "USDT"`, look price and change up in the
two maps, and if the image URL is non-empty rewrite it to the local asset URL
under the request's scheme and host.  (The image download side effect is
modelled separately by `ensureImage`.) -/
def processEntry (prices changes : List (String × String))
    (reqScheme reqHost : String) (e : ScrapedEntry) : CryptoInfo :=
  { Index := e.index
    Image := if e.image = "" then e.image
      else reqScheme ++ "://" ++ reqHost ++ "/images/" ++ imageFilename e.name
    Name := e.name
    Price := mapGet prices (toUpperStr e.name ++ "USDT")
    Change24h := mapGet changes (toUpperStr e.name ++ "USDT") }

/-- The `allResults` accumulation of `handleRequest`: entries with an empty
display name are silently skipped, the others joined and appended in DOM
order. -/
def processEntries (prices changes : List (String × String))
    (reqScheme reqHost : String) : List ScrapedEntry → List CryptoInfo
  | [] => []
  | e :: es =>
      if e.name = "" then processEntries prices changes reqScheme reqHost es
      else processEntry prices changes reqScheme reqHost e ::
        processEntries prices changes reqScheme reqHost es

/-- A concrete extraction result of 41 entries, all with non-empty names. -/
def es41 : List ScrapedEntry :=
  (List.range 41).map fun i =>
    { index := toString i, image := "", name := "N" ++ toString i }

/-- The joined result sequence for `es41` with both price maps empty. -/
def joined41 : List CryptoInfo := processEntries [] [] "http" "localhost:8080" es41

/-- The joined form of the 41st extracted entry of `es41`. -/
def entry41 : CryptoInfo :=
  processEntry [] [] "http" "localhost:8080"
    { index := "40", image := "", name := "N40" }

/-- Whether a (possibly aborted) categorized map contains an entry in one of
its four buckets. -/
def optionSnapshotHasEntry (o : Option Snapshot) (c : CryptoInfo) : Bool :=
  match o with
  | none => false
  | some snap => decide (c ∈ bucketsJoin snap)

/-- `BinancePriceInfo` from `main.go` (fields `symbol`, `price`). -/
structure BinancePriceInfo where
  symbol : String
  price : String
deriving DecidableEq

/-- `BinanceTickerInfo` from `main.go` (fields `symbol`,
`priceChangePercent`). -/
structure BinanceTickerInfo where
  symbol : String
  priceChangePercent : String
deriving DecidableEq

/-- Go map assignment `m[k] = v`: replace the binding if the key is present,
otherwise add it. -/
def mapSet : List (String × String) → String → String → List (String × String)
  | [], k, v => [(k, v)]
  | (k', v') :: rest, k, v =>
      if k' = k then (k, v) :: rest else (k', v') :: mapSet rest k v

/-- The prices map built from decoded price data (`main.go` lines 222–224). -/
def pricesMapOf (priceData : List BinancePriceInfo) : List (String × String) :=
  priceData.foldl (fun m item => mapSet m item.symbol item.price) []

/-- The changes map built from decoded 24h ticker data (`main.go` lines
240–242): each percent value goes through `formatChange`. -/
def changesMapOf (changeData : List BinanceTickerInfo) : List (String × String) :=
  changeData.foldl
    (fun m item => mapSet m item.symbol (formatChange item.priceChangePercent)) []

/-- Outcome of one `http.Get` plus JSON decode against a price endpoint:
decoded data, a transport error, or a decode error. -/
inductive FetchOutcome (α : Type) where
  | ok (data : List α)
  | transportError
  | decodeError
deriving DecidableEq

/-- `getPricesAndChanges` from `main.go` lines 204–245, parameterised by the
outcomes of its two sequential endpoint calls.  Both failure arms of either
call log and `return prices, changes` immediately — so a failure on the
prices endpoint returns both maps empty without ever consulting the change
endpoint, while a failure on the change endpoint returns the populated prices
with empty changes. -/
def getPricesAndChanges (priceResp : FetchOutcome BinancePriceInfo)
    (changeResp : FetchOutcome BinanceTickerInfo) :
    List (String × String) × List (String × String) :=
  match priceResp with
  | FetchOutcome.transportError => ([], [])
  | FetchOutcome.decodeError => ([], [])
  | FetchOutcome.ok priceData =>
      match changeResp with
      | FetchOutcome.transportError => (pricesMapOf priceData, [])
      | FetchOutcome.decodeError => (pricesMapOf priceData, [])
      | FetchOutcome.ok changeData => (pricesMapOf priceData, changesMapOf changeData)

/-- Raw fields extracted per DOM block by `updateDataFromBinance` in the
background variant (index label, image src, display name, and — unlike
`main.go` — price and 24h-change text read from the page itself). -/
structure RawEntry where
  index : String
  image : String
  name : String
  price : String
  change24h : String
deriving DecidableEq

/-- Global `scheme` of the background variant. -/
def scheme : String := "http"

/-- Global `host` of the background variant. -/
def host : String := "localhost:8080"

/-- Entry construction of the background variant (lines 86–113): all fields
from the DOM; a non-empty image URL is rewritten to the local asset URL under
the fixed scheme and host (the download side effect is modelled separately by
`ensureImage`). -/
def mkInfoBg (e : RawEntry) : CryptoInfo :=
  { Index := e.index
    Image := if e.image = "" then e.image
      else scheme ++ "://" ++ host ++ "/images/" ++ imageFilename e.name
    Name := e.name
    Price := e.price
    Change24h := e.change24h }

/-- The `allResults` accumulation of `updateDataFromBinance`: entries with an
empty display name are silently skipped, the others appended in order. -/
def collectedResults : List RawEntry → List CryptoInfo
  | [] => []
  | e :: es =>
      if e.name = "" then collectedResults es
      else mkInfoBg e :: collectedResults es

/-- Atomic actions of one refresh cycle on shared state: the mutex
acquisitions around each append (background variant lines 115–117), and the
final publication of the categorized map — in the source a plain assignment
to the global `categorizedResults` (line 137), with no lock held and no
atomic-swap primitive. -/
inductive RefreshEvent where
  | lock
  | unlock
  | append (c : CryptoInfo)
  | publish (snap : Snapshot)
deriving DecidableEq

/-- Shared-state actions performed for one extracted entry. -/
def entryEvents (e : RawEntry) : List RefreshEvent :=
  if e.name = "" then []
  else [RefreshEvent.lock, RefreshEvent.append (mkInfoBg e), RefreshEvent.unlock]

/-- Shared-state action trace of one `updateDataFromBinance` run on the
entries the page visit yielded: per-entry locked appends, then — only when
all four bucket accesses are in range — the unsynchronized publication of the
fully built map.  On a missing bucket the cycle panics and nothing is
published. -/
def refreshTrace (es : List RawEntry) : List RefreshEvent :=
  (es.map entryEvents).flatten ++
    (match buildCategorizedMap (collectedResults es) with
     | some snap => [RefreshEvent.publish snap]
     | none => [])

/-- The reader's view (`handleRequest` of the background variant, line 57):
the global `categorizedResults` after the first `k` actions of the refresh
trace have executed, under the interleaving model in which each listed action
is atomic.  Only `publish` changes the global. -/
def readAt (init : Option Snapshot) (tr : List RefreshEvent) (k : Nat) : Option Snapshot :=
  (tr.take k).foldl
    (fun g e =>
      match e with
      | RefreshEvent.publish snap => some snap
      | _ => g) init

/-- Does any publish action execute while the mutex is held?  The first
argument is the lock depth reached so far. -/
def anyPublishUnderLock : Nat → List RefreshEvent → Bool
  | _, [] => false
  | d, RefreshEvent.lock :: tl => anyPublishUnderLock (d + 1) tl
  | d, RefreshEvent.unlock :: tl => anyPublishUnderLock (d - 1) tl
  | d, RefreshEvent.append _ :: tl => anyPublishUnderLock d tl
  | d, RefreshEvent.publish _ :: tl => (d != 0) || anyPublishUnderLock d tl

/-- Does the trace publish at all? -/
def hasPublish : List RefreshEvent → Bool
  | [] => false
  | RefreshEvent.publish _ :: _ => true
  | _ :: tl => hasPublish tl

/-- A concrete 31-entry page-extraction result (names all non-empty), enough
for four buckets to exist and a publish to occur. -/
def es31 : List RawEntry :=
  (List.range 31).map fun i =>
    { index := toString i, image := "", name := "N" ++ toString i,
      price := "1", change24h := "2" }

/-- Outcome of `collyCollector.Visit(url)` together with the DOM extraction:
either the page yielded entry blocks, or the whole visit failed with a
transport or parse error.  A failed visit is logged (background variant lines
123–131) and the OnHTML callback never fires, so the extractor yields zero
entries. -/
inductive VisitOutcome where
  | ok (entries : List RawEntry)
  | failed
deriving DecidableEq

/-- Entries the extractor yields for a visit outcome. -/
def visitEntries : VisitOutcome → List RawEntry
  | VisitOutcome.ok es => es
  | VisitOutcome.failed => []

/-- One run of `updateDataFromBinance` (background variant lines 70–143):
extract, accumulate, categorize, and index the four buckets.  `none` is the
unguarded out-of-range bucket access: the refresh cycle aborts — the panic
kills the refresh goroutine and with it the process — and no map is
published. -/
def updateDataCycle (v : VisitOutcome) : Option Snapshot :=
  buildCategorizedMap (collectedResults (visitEntries v))

/-- Effect of one cycle on the global `categorizedResults`: overwritten only
when the cycle completes; an aborting cycle never writes it (the previous
value is still in place at the moment the process dies). -/
def applyCycle (g : Option Snapshot) (v : VisitOutcome) : Option Snapshot :=
  match updateDataCycle v with
  | some snap => some snap
  | none => g

/-- Outcome of `os.Stat("images/" + filename)`: success, a not-exist error,
or any other error (e.g. a permission error). -/
inductive StatOutcome where
  | ok
  | notExist
  | otherErr
deriving DecidableEq

/-- Filesystem-and-network state visible to the image cache: the stat outcome
per path, and how many `http.Get` image fetches have been attempted so
far. -/
structure World where
  stat : String → StatOutcome
  fetchCount : Nat

/-- Per-call environment of `downloadImage`: whether the `http.Get`, the
`os.MkdirAll` and the `os.Create` succeed.  (A failing `io.Copy` can leave a
truncated file, but the file exists either way, so write failure does not
affect existence.) -/
structure NetFS where
  netOK : Bool
  mkdirOK : Bool
  createOK : Bool
deriving DecidableEq

/-- `imageExists` from `main.go` lines 166–169: stat `images/<filename>` and
report the file present unless the error is specifically a not-exist error
(`!os.IsNotExist(err)`). -/
def imageExists (w : World) (filename : String) : Bool :=
  if w.stat ("images/" ++ filename) = StatOutcome.notExist then false else true

/-- `downloadImage` from `main.go` lines 172–201: always attempts the
`http.Get` first; on fetch, mkdir or create failure it logs and returns
leaving no file behind; once `os.Create` succeeds the file exists at
`images/<filename>` regardless of the subsequent write. -/
def downloadImage (env : NetFS) (filename : String) (w : World) : World :=
  let w1 : World := { w with fetchCount := w.fetchCount + 1 }
  if env.netOK = false then w1
  else if env.mkdirOK = false then w1
  else if env.createOK = false then w1
  else { w1 with
    stat := fun p => if p = "images/" ++ filename then StatOutcome.ok else w.stat p }

/-- The caller-side cache protocol (`main.go` lines 96–99): download only
when `imageExists` reports the file absent. -/
def ensureImage (env : NetFS) (filename : String) (w : World) : World :=
  if imageExists w filename then w else downloadImage env filename w

/-- A world where no image file exists yet and nothing has been fetched. -/
def emptyWorld : World :=
  { stat := fun _ => StatOutcome.notExist, fetchCount := 0 }

/-- A download environment whose network fetch fails. -/
def netFailEnv : NetFS := { netOK := false, mkdirOK := true, createOK := true }

/-- A download environment where every step succeeds. -/
def allOKEnv : NetFS := { netOK := true, mkdirOK := true, createOK := true }

/-- A world where stat fails with a non-not-exist error (e.g. permission
denied) for every path. -/
def permErrWorld : World :=
  { stat := fun _ => StatOutcome.otherErr, fetchCount := 0 }

theorem categorizeResultsGo_nil (fuel : Nat) : categorizeResultsGo fuel [] = [] := by
  cases fuel <;> rfl

theorem categorizeResultsGo_fuel_irrel (fuel : Nat) :
    ∀ fuel' (l : List CryptoInfo), l.length ≤ fuel → l.length ≤ fuel' →
      categorizeResultsGo fuel l = categorizeResultsGo fuel' l := by
  induction fuel with
  | zero =>
    intro fuel' l h _
    have : l = [] := List.eq_nil_of_length_eq_zero (Nat.le_zero.mp h)
    subst this
    rw [categorizeResultsGo_nil, categorizeResultsGo_nil]
  | succ fuel ih =>
    intro fuel' l h h'
    match l with
    | [] => rw [categorizeResultsGo_nil, categorizeResultsGo_nil]
    | a :: rest =>
      match fuel' with
      | 0 => simp at h'
      | fuel' + 1 =>
        show (a :: rest).take 10 :: categorizeResultsGo fuel ((a :: rest).drop 10)
            = (a :: rest).take 10 :: categorizeResultsGo fuel' ((a :: rest).drop 10)
        have hd : ((a :: rest).drop 10).length ≤ fuel := by
          simp only [List.length_drop, List.length_cons]
          simp only [List.length_cons] at h
          omega
        have hd' : ((a :: rest).drop 10).length ≤ fuel' := by
          simp only [List.length_drop, List.length_cons]
          simp only [List.length_cons] at h'
          omega
        rw [ih fuel' _ hd hd']

theorem categorizeResults_nil : categorizeResults [] = [] := rfl

theorem categorizeResults_cons (l : List CryptoInfo) (h : l ≠ []) :
    categorizeResults l = l.take 10 :: categorizeResults (l.drop 10) := by
  match l, h with
  | a :: rest, _ =>
    show categorizeResultsGo (rest.length + 1) (a :: rest)
        = (a :: rest).take 10 :: categorizeResults ((a :: rest).drop 10)
    show (a :: rest).take 10 :: categorizeResultsGo rest.length ((a :: rest).drop 10)
        = (a :: rest).take 10 :: categorizeResultsGo ((a :: rest).drop 10).length ((a :: rest).drop 10)
    rw [categorizeResultsGo_fuel_irrel rest.length ((a :: rest).drop 10).length
      ((a :: rest).drop 10) (by simp only [List.length_drop, List.length_cons]; omega) le_rfl]

/-- Number of buckets is `⌈N/10⌉`, i.e. `(N + 9) / 10` in natural division. -/
theorem categorizeResults_length (l : List CryptoInfo) :
    (categorizeResults l).length = (l.length + 9) / 10 := by
  suffices h : ∀ fuel (l : List CryptoInfo), l.length ≤ fuel →
      (categorizeResultsGo fuel l).length = (l.length + 9) / 10 from
    h l.length l le_rfl
  intro fuel
  induction fuel with
  | zero =>
    intro l h
    have : l = [] := List.eq_nil_of_length_eq_zero (Nat.le_zero.mp h)
    subst this
    rfl
  | succ fuel ih =>
    intro l h
    match l with
    | [] => rfl
    | a :: rest =>
      show ((a :: rest).take 10 :: categorizeResultsGo fuel ((a :: rest).drop 10)).length
          = ((a :: rest).length + 9) / 10
      have hd : ((a :: rest).drop 10).length ≤ fuel := by
        simp only [List.length_drop, List.length_cons]
        simp only [List.length_cons] at h
        omega
      simp only [List.length_cons, ih _ hd, List.length_drop]
      omega

/-- Every bucket except possibly the last has exactly 10 entries. -/
theorem categorizeResults_bucket_size (l : List CryptoInfo) :
    ∀ b ∈ (categorizeResults l).dropLast, b.length = 10 := by
  suffices h : ∀ fuel (l : List CryptoInfo), l.length ≤ fuel →
      ∀ b ∈ (categorizeResultsGo fuel l).dropLast, b.length = 10 from
    h l.length l le_rfl
  intro fuel
  induction fuel with
  | zero =>
    intro l h
    have : l = [] := List.eq_nil_of_length_eq_zero (Nat.le_zero.mp h)
    subst this
    simp [categorizeResultsGo_nil]
  | succ fuel ih =>
    intro l h
    match l with
    | [] => simp [categorizeResultsGo_nil]
    | a :: rest =>
      show ∀ b ∈ ((a :: rest).take 10 :: categorizeResultsGo fuel ((a :: rest).drop 10)).dropLast,
          b.length = 10
      have hd : ((a :: rest).drop 10).length ≤ fuel := by
        simp only [List.length_drop, List.length_cons]
        simp only [List.length_cons] at h
        omega
      by_cases hrec : categorizeResultsGo fuel ((a :: rest).drop 10) = []
      · rw [hrec]
        simp
      · rw [List.dropLast_cons_of_ne_nil hrec]
        intro b hb
        rcases List.mem_cons.mp hb with hb | hb
        · -- head bucket: the tail chunk list is non-empty, so the drop is
          -- non-empty, hence the list has more than 10 elements.
          subst hb
          have hdrop_ne : (a :: rest).drop 10 ≠ [] := by
            intro hcon
            rw [hcon, categorizeResultsGo_nil] at hrec
            exact hrec rfl
          have h10 : 10 < (a :: rest).length := by
            have := List.length_pos.mpr hdrop_ne
            simp only [List.length_drop] at this
            omega
          simp only [List.length_take]
          omega
        · exact ih _ hd b hb

/-- Concatenating the buckets restores the input unchanged. -/
theorem categorizeResults_flatten (l : List CryptoInfo) :
    (categorizeResults l).flatten = l := by
  suffices h : ∀ fuel (l : List CryptoInfo), l.length ≤ fuel →
      (categorizeResultsGo fuel l).flatten = l from
    h l.length l le_rfl
  intro fuel
  induction fuel with
  | zero =>
    intro l h
    have : l = [] := List.eq_nil_of_length_eq_zero (Nat.le_zero.mp h)
    subst this
    rfl
  | succ fuel ih =>
    intro l h
    match l with
    | [] => rfl
    | a :: rest =>
      show ((a :: rest).take 10 :: categorizeResultsGo fuel ((a :: rest).drop 10)).flatten
          = a :: rest
      have hd : ((a :: rest).drop 10).length ≤ fuel := by
        simp only [List.length_drop, List.length_cons]
        simp only [List.length_cons] at h
        omega
      simp only [List.flatten_cons, ih _ hd, List.take_append_drop]

/-- C1: for every input sequence of N entries, `categorizeResults` returns
exactly ⌈N/10⌉ buckets; every bucket except possibly the last has exactly 10
entries; concatenating the buckets in order yields the input sequence
unchanged (original order, no entry duplicated or dropped). -/
theorem categorizeResults_spec (l : List CryptoInfo) :
    (categorizeResults l).length = (l.length + 9) / 10
    ∧ (∀ b ∈ (categorizeResults l).dropLast, b.length = 10)
    ∧ (categorizeResults l).flatten = l :=
  ⟨categorizeResults_length l, categorizeResults_bucket_size l,
    categorizeResults_flatten l⟩

/-- Witness for C1 at a concrete 12-entry input: bucket count is
`(12 + 9) / 10 = 2`, the first (the only non-last) bucket has 10 entries,
and the join restores the input. -/
theorem categorizeResults_spec_witness :
    (categorizeResults sample12).length = (sample12.length + 9) / 10
    ∧ (sample12.take 10).length = 10
    ∧ (categorizeResults sample12).flatten = sample12 :=
  ⟨(categorizeResults_spec sample12).1,
    (categorizeResults_spec sample12).2.1 (sample12.take 10) (by decide),
    (categorizeResults_spec sample12).2.2⟩

/-- C2: for every result sequence with fewer than 31 entries,
`categorizeResults` yields fewer than 4 buckets and building the categorized
map hits an out-of-bounds bucket index: the cycle aborts (`none`) instead of
emitting empty buckets. -/
theorem buildCategorizedMap_underflow (l : List CryptoInfo) (h : l.length < 31) :
    (categorizeResults l).length < 4 ∧ buildCategorizedMap l = none := by
  have hlen : (categorizeResults l).length = (l.length + 9) / 10 :=
    categorizeResults_length l
  have hlt : (categorizeResults l).length < 4 := by omega
  refine ⟨hlt, ?_⟩
  have h3 : (categorizeResults l).get? 3 = none := by
    rw [List.get?_eq_none]
    omega
  unfold buildCategorizedMap
  rw [h3]
  cases (categorizeResults l).get? 0 <;> cases (categorizeResults l).get? 1 <;>
    cases (categorizeResults l).get? 2 <;> rfl

/-- Witness for C2 at the concrete 30-entry prefix of nothing: the empty
result sequence has fewer than 31 entries, produces fewer than 4 buckets, and
the map construction aborts. -/
theorem buildCategorizedMap_underflow_witness :
    (categorizeResults []).length < 4 ∧ buildCategorizedMap [] = none :=
  buildCategorizedMap_underflow [] (by decide)

theorem digitChar_isDigit (n : Nat) (h : n < 10) :
    (Char.ofNat (48 + n)).isDigit = true := by
  interval_cases n <;> decide

theorem isDigit_ne_dot (c : Char) (h : c.isDigit = true) : c ≠ '.' := by
  intro hc
  rw [hc] at h
  exact absurd h (by decide)

theorem natStrAux_digits :
    ∀ fuel n acc, (∀ c ∈ acc, c.isDigit = true) →
      ∀ c ∈ natStrAux fuel n acc, c.isDigit = true := by
  intro fuel
  induction fuel with
  | zero => intro n acc hacc; exact hacc
  | succ fuel ih =>
    intro n acc hacc c hc
    by_cases hn : n < 10
    · rw [show natStrAux (fuel + 1) n acc = Char.ofNat (48 + n) :: acc by
        simp [natStrAux, hn]] at hc
      rcases List.mem_cons.mp hc with hc | hc
      · subst hc; exact digitChar_isDigit n hn
      · exact hacc c hc
    · rw [show natStrAux (fuel + 1) n acc
          = natStrAux fuel (n / 10) (Char.ofNat (48 + n % 10) :: acc) by
        simp [natStrAux, hn]] at hc
      refine ih (n / 10) (Char.ofNat (48 + n % 10) :: acc) ?_ c hc
      intro d hd
      rcases List.mem_cons.mp hd with hd | hd
      · subst hd; exact digitChar_isDigit _ (Nat.mod_lt n (by norm_num))
      · exact hacc d hd

theorem natStr_digits (n : Nat) : ∀ c ∈ (natStr n).data, c.isDigit = true :=
  natStrAux_digits (n + 1) n [] (by intro c hc; cases hc)

/-- The Go positivity test `changeValue > 0` on the parsed float is the
significand test `0 < v.num` in the decimal model. -/
theorem DecValue.toRat_pos (v : DecValue) : 0 < v.toRat ↔ 0 < v.num := by
  unfold DecValue.toRat
  rw [div_pos_iff_of_pos_right (by positivity)]
  exact_mod_cast Iff.rfl

/-- The `%.2f` model always renders as `pre ++ "." ++ two digit chars`,
with no decimal point inside `pre`. -/
theorem formatF2_shape (v : DecValue) :
    ∃ pre d1 d2, (formatF2 v).data = pre ++ ['.', d1, d2]
      ∧ d1.isDigit = true ∧ d2.isDigit = true ∧ '.' ∉ pre := by
  refine ⟨(if v.num < 0 then "-" else "").data ++ (natStr (v.scaled2 / 100)).data,
    Char.ofNat (48 + v.scaled2 % 100 / 10 % 10),
    Char.ofNat (48 + v.scaled2 % 100 % 10), ?_, ?_, ?_, ?_⟩
  · show (formatF2 v).data = _
    unfold formatF2
    by_cases hneg : v.num < 0
    · rw [if_pos hneg]
      simp [twoDigits, List.append_assoc]
    · rw [if_neg hneg]
      simp [twoDigits, List.append_assoc]
  · exact digitChar_isDigit _ (Nat.mod_lt _ (by norm_num))
  · exact digitChar_isDigit _ (Nat.mod_lt _ (by norm_num))
  · intro hmem
    rcases List.mem_append.mp hmem with hmem | hmem
    · by_cases hneg : v.num < 0
      · rw [if_pos hneg] at hmem
        exact absurd hmem (by decide)
      · rw [if_neg hneg] at hmem
        exact absurd hmem (by decide)
    · exact isDigit_ne_dot _ (natStr_digits _ _ hmem) rfl

/-- C5: `formatChange` renders any input that parses as a positive number
with a leading "+", any parsed non-positive number without an extra sign,
both with exactly two decimal digits and a trailing "%", and returns any
unparsable input unchanged.  (`parseFloatDec`/`formatF2` model the
`strconv.ParseFloat` / `fmt.Sprintf("%.2f", _)` library calls.) -/
theorem formatChange_spec (change : String) :
    (∀ v, parseFloatDec change = some v → 0 < v.num →
        formatChange change = "+" ++ formatF2 v ++ "%")
    ∧ (∀ v, parseFloatDec change = some v → ¬ 0 < v.num →
        formatChange change = formatF2 v ++ "%")
    ∧ (parseFloatDec change = none → formatChange change = change)
    ∧ (∀ v, parseFloatDec change = some v →
        ∃ pre d1 d2, (formatChange change).data = pre ++ ['.', d1, d2, '%']
          ∧ d1.isDigit = true ∧ d2.isDigit = true ∧ '.' ∉ pre) := by
  refine ⟨?_, ?_, ?_, ?_⟩
  · intro v hv hpos
    simp [formatChange, hv, hpos]
  · intro v hv hpos
    simp [formatChange, hv, hpos]
  · intro hv
    simp [formatChange, hv]
  · intro v hv
    obtain ⟨pre, d1, d2, hdata, hd1, hd2, hdot⟩ := formatF2_shape v
    by_cases hpos : 0 < v.num
    · refine ⟨'+' :: pre, d1, d2, ?_, hd1, hd2, ?_⟩
      · simp only [formatChange, hv, if_pos hpos, String.data_append, hdata,
          List.append_assoc]
        rfl
      · intro hmem
        rcases List.mem_cons.mp hmem with hmem | hmem
        · cases hmem
        · exact hdot hmem
    · refine ⟨pre, d1, d2, ?_, hd1, hd2, hdot⟩
      simp only [formatChange, hv, if_neg hpos, String.data_append, hdata,
        List.append_assoc]
      rfl

/-- Witness for C5 at the spec's three examples: "3.5" renders as "+3.50%",
"-2" as "-2.00%", and "abc" is returned unchanged. -/
theorem formatChange_spec_witness :
    formatChange "3.5" = "+3.50%"
    ∧ formatChange "-2" = "-2.00%"
    ∧ formatChange "abc" = "abc" := by
  refine ⟨?_, ?_, ?_⟩
  · rw [(formatChange_spec "3.5").1 ⟨35, 1⟩ (by decide) (by decide)]
    decide
  · rw [(formatChange_spec "-2").2.1 ⟨-2, 0⟩ (by decide) (by decide)]
    decide
  · exact (formatChange_spec "abc").2.2.1 (by decide)

/-- C6: the join key is `uppercase(displayName) + "USDT"` and the joined
entry's price (and 24h change) is exactly the corresponding map's value at
that key; concretely, price map {"BTCUSDT": "65000.00"} and displayName
"Btc" join to price "65000.00". -/
theorem processEntry_symbol_price :
    (∀ (prices changes : List (String × String)) (reqScheme reqHost : String)
        (e : ScrapedEntry),
        (processEntry prices changes reqScheme reqHost e).Price
          = mapGet prices (toUpperStr e.name ++ "USDT")
        ∧ (processEntry prices changes reqScheme reqHost e).Change24h
          = mapGet changes (toUpperStr e.name ++ "USDT"))
    ∧ (processEntry [("BTCUSDT", "65000.00")] [] "http" "localhost:8080"
        { index := "1", image := "", name := "Btc" }).Price = "65000.00" :=
  ⟨fun _ _ _ _ _ => ⟨rfl, rfl⟩, by decide⟩

/-- C8 counterexample: when the prices fetch fails while the changes
endpoint would decode fine, `getPricesAndChanges` returns early and BOTH
maps come back empty — the change endpoint is never consulted.  This refutes
"an empty mapping for that endpoint only ... prices may be populated while
changes are empty or vice versa": changes are never populated while prices
are empty because of an endpoint failure. -/
theorem getPricesAndChanges_not_independent :
    getPricesAndChanges FetchOutcome.transportError
        (FetchOutcome.ok [{ symbol := "BTCUSDT", priceChangePercent := "1" }])
      = ([], [])
    ∧ changesMapOf [{ symbol := "BTCUSDT", priceChangePercent := "1" }] ≠ [] :=
  ⟨rfl, by decide⟩

/-- C8 (amended): the two fetches are sequential with early return, not
independent.  A failure (transport or decode) on the prices endpoint
degrades BOTH maps to empty — the change endpoint is never fetched; a
failure on the changes endpoint alone yields populated prices with empty
changes; when both succeed, both maps are populated (change values passing
through `formatChange`). -/
theorem getPricesAndChanges_spec (priceData : List BinancePriceInfo)
    (changeData : List BinanceTickerInfo)
    (changeResp : FetchOutcome BinanceTickerInfo) :
    getPricesAndChanges FetchOutcome.transportError changeResp = ([], [])
    ∧ getPricesAndChanges FetchOutcome.decodeError changeResp = ([], [])
    ∧ getPricesAndChanges (FetchOutcome.ok priceData) FetchOutcome.transportError
        = (pricesMapOf priceData, [])
    ∧ getPricesAndChanges (FetchOutcome.ok priceData) FetchOutcome.decodeError
        = (pricesMapOf priceData, [])
    ∧ getPricesAndChanges (FetchOutcome.ok priceData) (FetchOutcome.ok changeData)
        = (pricesMapOf priceData, changesMapOf changeData) :=
  ⟨rfl, rfl, rfl, rfl, rfl⟩

/-- C4 counterexample: on a failed page visit the extractor yields zero
entries, and the refresh cycle then hits the unguarded bucket indexing and
aborts (`none` — an out-of-range panic that takes the refresh goroutine and
the process down; in the per-request `main.go` variant the visit error is
fatal directly via `log.Fatal`).  This refutes "the cycle is not aborted
process-wide ... the stale Snapshot remains visible to readers". -/
theorem updateDataCycle_visitFailure_aborts :
    collectedResults (visitEntries VisitOutcome.failed) = []
    ∧ updateDataCycle VisitOutcome.failed = none :=
  ⟨rfl, rfl⟩

/-- C4 (amended): on transport or parse failure of the whole page the error
is logged and the extractor yields zero entries for that cycle; the
zero-entry sequence then reaches the unguarded bucket indexing, so the cycle
aborts instead of completing (and the panic brings the process down).  The
global snapshot is never overwritten or forcibly invalidated to empty — the
prior value is still in place at the moment the cycle dies. -/
theorem updateDataCycle_visitFailure_spec (g : Option Snapshot) :
    collectedResults (visitEntries VisitOutcome.failed) = []
    ∧ updateDataCycle VisitOutcome.failed = none
    ∧ applyCycle g VisitOutcome.failed = g :=
  ⟨rfl, rfl, rfl⟩

/-- C9 counterexample: with the file absent and the network fetch failing,
no file is created, so the second call finds nothing and fetches again — two
network fetches for the same filename, refuting "calling it twice with the
same filename performs at most one network fetch". -/
theorem ensureImage_twice_two_fetches :
    (ensureImage netFailEnv "a.jpg"
        (ensureImage netFailEnv "a.jpg" emptyWorld)).fetchCount = 2 := rfl

/-- If a call finds the file present it is a no-op (no fetch). -/
theorem ensureImage_hit_noop (env : NetFS) (fn : String) (w : World)
    (h : imageExists w fn = true) : ensureImage env fn w = w := by
  simp [ensureImage, h]

/-- C9 (amended): image resolution is idempotent per filename provided the
first call's fetch, directory creation and file creation succeed: the file
then exists, the second call short-circuits on existence with no network
call, and the two calls perform at most one fetch between them.  A call that
finds the file present never fetches.  (When the fetch chain fails, no file
is left behind and the next call fetches again.) -/
theorem ensureImage_idempotent (env : NetFS) (fn : String) (w : World)
    (hnet : env.netOK = true) (hmk : env.mkdirOK = true) (hcr : env.createOK = true) :
    imageExists (ensureImage env fn w) fn = true
    ∧ ensureImage env fn (ensureImage env fn w) = ensureImage env fn w
    ∧ (ensureImage env fn (ensureImage env fn w)).fetchCount ≤ w.fetchCount + 1
    ∧ (imageExists w fn = true → ensureImage env fn w = w) := by
  have hkey : imageExists (ensureImage env fn w) fn = true := by
    by_cases h : imageExists w fn = true
    · rwa [ensureImage_hit_noop env fn w h]
    · have h' : imageExists w fn = false := by simpa using h
      have hstat : w.stat ("images/" ++ fn) = StatOutcome.notExist := by
        by_contra hc
        simp [imageExists, hc] at h'
      simp [ensureImage, h', downloadImage, hnet, hmk, hcr, imageExists, hstat]
  have hsecond : ensureImage env fn (ensureImage env fn w) = ensureImage env fn w :=
    ensureImage_hit_noop env fn (ensureImage env fn w) hkey
  refine ⟨hkey, hsecond, ?_, fun h => ensureImage_hit_noop env fn w h⟩
  rw [hsecond]
  by_cases h : imageExists w fn = true
  · rw [ensureImage_hit_noop env fn w h]
    omega
  · have h' : imageExists w fn = false := by simpa using h
    simp [ensureImage, h', downloadImage, hnet, hmk, hcr]

/-- Witness for C9 (amended) at a concrete succeeding environment: starting
from an empty world, after one resolution the file exists, and two
resolutions cost at most one fetch. -/
theorem ensureImage_idempotent_witness :
    imageExists (ensureImage allOKEnv "a.jpg" emptyWorld) "a.jpg" = true
    ∧ (ensureImage allOKEnv "a.jpg"
        (ensureImage allOKEnv "a.jpg" emptyWorld)).fetchCount
        ≤ emptyWorld.fetchCount + 1 :=
  ⟨(ensureImage_idempotent allOKEnv "a.jpg" emptyWorld rfl rfl rfl).1,
    (ensureImage_idempotent allOKEnv "a.jpg" emptyWorld rfl rfl rfl).2.2.1⟩

/-- C10: `imageExists` reports the file present for every stat outcome that
is not a not-exist error — success and any other stat failure (e.g. a
permission error) both count as a cache hit, so the download is skipped in
those cases; the fetch is attempted exactly when the stat error is
specifically not-exist. -/
theorem imageExists_stat_spec (env : NetFS) (w : World) (fn : String) :
    (w.stat ("images/" ++ fn) ≠ StatOutcome.notExist →
      imageExists w fn = true
      ∧ ensureImage env fn w = w
      ∧ (ensureImage env fn w).fetchCount = w.fetchCount)
    ∧ (w.stat ("images/" ++ fn) = StatOutcome.notExist →
      imageExists w fn = false
      ∧ (ensureImage env fn w).fetchCount = w.fetchCount + 1) := by
  constructor
  · intro h
    have hex : imageExists w fn = true := by
      simp [imageExists, h]
    exact ⟨hex, ensureImage_hit_noop env fn w hex,
      by rw [ensureImage_hit_noop env fn w hex]⟩
  · intro h
    have hex : imageExists w fn = false := by
      simp [imageExists, h]
    refine ⟨hex, ?_⟩
    rcases env with ⟨net, mk, cr⟩
    cases net <;> cases mk <;> cases cr <;>
      simp [ensureImage, hex, downloadImage]

/-- Witness for C10 at a world whose stat fails with a permission-style
error: the file counts as present and no fetch happens. -/
theorem imageExists_stat_spec_witness :
    imageExists permErrWorld "a.jpg" = true
    ∧ (ensureImage netFailEnv "a.jpg" permErrWorld).fetchCount
        = permErrWorld.fetchCount :=
  ⟨((imageExists_stat_spec netFailEnv permErrWorld "a.jpg").1 (by decide)).1,
    ((imageExists_stat_spec netFailEnv permErrWorld "a.jpg").1 (by decide)).2.2⟩

/-- The first `k` buckets concatenated are the first `10 * k` entries. -/
theorem categorizeResults_take_flatten (k : Nat) :
    ∀ l : List CryptoInfo,
      ((categorizeResults l).take k).flatten = l.take (10 * k) := by
  induction k with
  | zero => intro l; simp
  | succ k ih =>
    intro l
    by_cases h : l = []
    · subst h
      simp [categorizeResults_nil]
    · rw [categorizeResults_cons l h]
      simp only [List.take_succ_cons, List.flatten_cons, ih]
      rw [show 10 * (k + 1) = 10 + 10 * k by ring, List.take_add]

/-- When the four bucket accesses are in range, the snapshot's buckets in
label order are exactly the first 40 joined entries. -/
theorem buildCategorizedMap_buckets (l : List CryptoInfo) (snap : Snapshot)
    (h : buildCategorizedMap l = some snap) : bucketsJoin snap = l.take 40 := by
  have h40 := categorizeResults_take_flatten 4 l
  rcases hcat : categorizeResults l with _ | ⟨g0, _ | ⟨g1, _ | ⟨g2, _ | ⟨g3, rest⟩⟩⟩⟩
  · have hb : buildCategorizedMap l = none := by
      unfold buildCategorizedMap
      rw [hcat]
      rfl
    rw [hb] at h
    cases h
  · have hb : buildCategorizedMap l = none := by
      unfold buildCategorizedMap
      rw [hcat]
      rfl
    rw [hb] at h
    cases h
  · have hb : buildCategorizedMap l = none := by
      unfold buildCategorizedMap
      rw [hcat]
      rfl
    rw [hb] at h
    cases h
  · have hb : buildCategorizedMap l = none := by
      unfold buildCategorizedMap
      rw [hcat]
      rfl
    rw [hb] at h
    cases h
  · have hb : buildCategorizedMap l = some ⟨g0, g1, g2, g3⟩ := by
      unfold buildCategorizedMap
      rw [hcat]
      rfl
    rw [hb] at h
    have hsnap : Snapshot.mk g0 g1 g2 g3 = snap := Option.some.inj h
    subst hsnap
    rw [hcat] at h40
    simp only [List.take_succ_cons, List.take_zero, List.flatten_cons,
      List.flatten_nil, List.append_nil] at h40
    rw [bucketsJoin]
    rw [show (10 : Nat) * 4 = 40 from rfl] at h40
    simpa [List.append_assoc] using h40

/-- C7 counterexample: 41 extracted entries, all with non-empty display
names, joined against two empty price maps: the map construction succeeds,
yet the joined 41st entry — a successfully extracted entry with non-empty
displayName — appears in none of the snapshot's four buckets.  This refutes
"the resulting Snapshot still contains every extracted entry with non-empty
displayName". -/
theorem snapshot_drops_41st_entry :
    es41.all (fun e => e.name ≠ "") = true
    ∧ entry41 ∈ joined41
    ∧ (buildCategorizedMap joined41).isSome = true
    ∧ optionSnapshotHasEntry (buildCategorizedMap joined41) entry41 = false :=
  ⟨by decide, by decide, by decide, by decide⟩

/-- C7 (amended): with both price maps empty, the joined sequence is exactly
the extracted entries with non-empty displayName, in order, each with
empty-string price and change fields; in general a symbol missing from
either map yields an empty string for that field (not an error), and an
empty-displayName entry is silently skipped.  The Snapshot, when its four
buckets exist at all, holds exactly the first 40 joined entries — entries
beyond the 40th are dropped. -/
theorem processEntries_empty_maps (reqScheme reqHost : String)
    (es : List ScrapedEntry) :
    processEntries [] [] reqScheme reqHost es
        = (es.filter fun e => ¬ (e.name = "")).map
            (processEntry [] [] reqScheme reqHost)
    ∧ (∀ c ∈ processEntries [] [] reqScheme reqHost es,
        c.Price = "" ∧ c.Change24h = "")
    ∧ (∀ (prices changes : List (String × String)) (e : ScrapedEntry),
        (prices.lookup (toUpperStr e.name ++ "USDT") = none →
          (processEntry prices changes reqScheme reqHost e).Price = "")
        ∧ (changes.lookup (toUpperStr e.name ++ "USDT") = none →
          (processEntry prices changes reqScheme reqHost e).Change24h = ""))
    ∧ (∀ snap,
        buildCategorizedMap (processEntries [] [] reqScheme reqHost es) = some snap →
        bucketsJoin snap = (processEntries [] [] reqScheme reqHost es).take 40) := by
  have hmap : processEntries [] [] reqScheme reqHost es
      = (es.filter fun e => ¬ (e.name = "")).map
          (processEntry [] [] reqScheme reqHost) := by
    induction es with
    | nil => rfl
    | cons e es ih =>
      by_cases h : e.name = ""
      · simp [processEntries, h, ih]
      · simp [processEntries, h, ih]
  refine ⟨hmap, ?_, ?_, ?_⟩
  · intro c hc
    rw [hmap] at hc
    obtain ⟨e, _, rfl⟩ := List.mem_map.mp hc
    exact ⟨rfl, rfl⟩
  · intro prices changes e
    constructor <;> intro h <;> simp [processEntry, mapGet, h]
  · intro snap h
    exact buildCategorizedMap_buckets _ snap h

/-- Witness for C7 (amended) at the concrete 41-entry input with empty maps:
the joined sequence is the filtered map, the 41st joined entry has empty
price and change fields, a missing symbol yields an empty price, and the
snapshot's buckets are the first 40 joined entries. -/
theorem processEntries_empty_maps_witness :
    joined41 = (es41.filter fun e => ¬ (e.name = "")).map
        (processEntry [] [] "http" "localhost:8080")
    ∧ (entry41.Price = "" ∧ entry41.Change24h = "")
    ∧ (processEntry [] [] "http" "localhost:8080"
        { index := "1", image := "", name := "A" }).Price = ""
    ∧ bucketsJoin ((buildCategorizedMap joined41).get (by decide))
        = joined41.take 40 :=
  ⟨(processEntries_empty_maps "http" "localhost:8080" es41).1,
    (processEntries_empty_maps "http" "localhost:8080" es41).2.1 entry41 (by decide),
    ((processEntries_empty_maps "http" "localhost:8080" es41).2.2.1 [] []
      { index := "1", image := "", name := "A" }).1 rfl,
    (processEntries_empty_maps "http" "localhost:8080" es41).2.2.2 _
      (Option.some_get _).symm⟩

/-- No per-entry shared-state action is a publication. -/
theorem entryEvents_no_publish (e : RawEntry) :
    ∀ ev ∈ entryEvents e, ∀ snap, ev ≠ RefreshEvent.publish snap := by
  intro ev hev snap
  unfold entryEvents at hev
  by_cases h : e.name = ""
  · rw [if_pos h] at hev
    cases hev
  · rw [if_neg h] at hev
    simp only [List.mem_cons, List.not_mem_nil, or_false] at hev
    rcases hev with rfl | rfl | rfl <;> intro hc <;> cases hc

/-- Folding the reader-view step over publish-free actions leaves the global
unchanged. -/
theorem foldl_no_publish (init : Option Snapshot) :
    ∀ tr : List RefreshEvent,
      (∀ ev ∈ tr, ∀ snap, ev ≠ RefreshEvent.publish snap) →
      tr.foldl
        (fun g e =>
          match e with
          | RefreshEvent.publish snap => some snap
          | _ => g) init = init := by
  intro tr
  induction tr generalizing init with
  | nil => intro _; rfl
  | cons ev tl ih =>
    intro h
    have hev := h ev (List.mem_cons_self ev tl)
    have htl : ∀ ev ∈ tl, ∀ snap, ev ≠ RefreshEvent.publish snap :=
      fun ev hm => h ev (List.mem_cons_of_mem _ hm)
    cases ev with
    | publish snap => exact absurd rfl (hev snap)
    | lock => exact ih init htl
    | unlock => exact ih init htl
    | append c => exact ih init htl

/-- C3 (amended): the new Snapshot is fully built before the single
publication action, so in the interleaving model in which the plain global
assignment is one atomic action, a read at any point of the refresh trace
returns either the previous complete snapshot or the completed new one —
never a mix of old and new entries and never a partially built map.  The
source, however, performs that assignment with no lock held and no
atomic-swap primitive (see the counterexample theorem), so this old-or-new
guarantee rests on an atomicity assumption the code does not enforce. -/
theorem readAt_old_or_new (es : List RawEntry) (init : Option Snapshot) (k : Nat) :
    readAt init (refreshTrace es) k = init
    ∨ ∃ snap, buildCategorizedMap (collectedResults es) = some snap
        ∧ readAt init (refreshTrace es) k = some snap := by
  unfold readAt refreshTrace
  rw [List.take_append_eq_append_take, List.foldl_append]
  have hA : ∀ ev ∈ ((es.map entryEvents).flatten.take k),
      ∀ snap, ev ≠ RefreshEvent.publish snap := by
    intro ev hmem
    have hmem' := List.take_subset k _ hmem
    obtain ⟨evs, hevs, hin⟩ := List.mem_flatten.mp hmem'
    obtain ⟨e, _, rfl⟩ := List.mem_map.mp hevs
    exact entryEvents_no_publish e ev hin
  rw [foldl_no_publish init _ hA]
  cases hb : buildCategorizedMap (collectedResults es) with
  | none =>
    left
    simp
  | some snap =>
    cases hk : k - (es.map entryEvents).flatten.length with
    | zero => left; simp
    | succ n =>
      right
      exact ⟨snap, rfl, by simp⟩

/-- C3 counterexample: a concrete refresh on 31 extracted entries publishes
a snapshot, and every publication in its shared-state trace executes at lock
depth 0 — the snapshot replacement is a plain global assignment performed
with the mutex not held and through no atomic-swap primitive.  This refutes
"the shared reference is replaced in a single atomic step (under a lock or
equivalent atomic-swap primitive)". -/
theorem publish_not_under_mutex :
    hasPublish (refreshTrace es31) = true
    ∧ anyPublishUnderLock 0 (refreshTrace es31) = false :=
  ⟨by decide, by decide⟩
